import Mathlib

/-!
Verification of the silkie static site generator (`src/silkie/silkie.py`)
against its natural-language specification.

The Python functions are shallowly embedded as Lean functions over
`String` / `List Char`.  HTML output is modelled as a tree of nodes (the
structure yattag builds before pretty-printing); the file system and the
console are modelled as explicit values threaded through the run loop.
Parts of the repository that are not under `src/` (`silkie/options.py`,
`silkie/utils.py`, `silkie/definitions.py`) are modelled from the spec and
marked as such in their doc comments.
-/

namespace Silkie

/-- The ASCII characters Python `str.strip()` removes.  (Python also strips
non-ASCII Unicode whitespace; the contents handled here are ASCII.) -/
def pyWs (ch : Char) : Bool :=
  ch = ' ' || ch = '\t' || ch = '\n' || ch = '\r' || ch = '\x0b' || ch = '\x0c'

/-- Python `s.strip()` on a character list: drop whitespace from both ends. -/
def pyStripL (l : List Char) : List Char :=
  ((l.dropWhile pyWs).reverse.dropWhile pyWs).reverse

/-- Python `s.strip()`. -/
def pyStrip (s : String) : String := String.mk (pyStripL s.data)

/-- Python `s.split(sep)` for a single-character separator (structural
recursion so the kernel can evaluate it). -/
def splitOnChar (sep : Char) : List Char → List (List Char)
  | [] => [[]]
  | c :: rest =>
    if c = sep then [] :: splitOnChar sep rest
    else
      match splitOnChar sep rest with
      | p :: ps => (c :: p) :: ps
      | [] => [[c]]

/-- Python `s.split("\n")`. -/
def splitNl : List Char → List (List Char) := splitOnChar '\n'

/-- Python `s.split("\n\n")`: split on non-overlapping occurrences of two
consecutive newline characters, scanning left to right. -/
def splitNN : List Char → List (List Char)
  | '\n' :: '\n' :: rest => [] :: splitNN rest
  | c :: rest =>
    match splitNN rest with
    | p :: ps => (c :: p) :: ps
    | [] => [[c]]
  | [] => [[]]

/-- The maximal newline-free leading segment of the content: what the greedy
`.+` of the regex `^.+(\n\n\n)` consumes (`.` matches anything but `\n`). -/
def firstLine (c : String) : String :=
  String.mk (c.data.takeWhile (fun ch => ch != '\n'))

/-- Embeds `get_title` (src/silkie/silkie.py, lines 68-79): it searches the file text
for the anchored regex `^.+(\n\n\n)`.  The regex matches iff the first line
is non-empty and is immediately followed by three newline characters;
`group(0)` is that first line plus the three newlines, and the result is
stripped.  Returns `""` when there is no match.  `content` stands for the
text read from `file_path`. -/
def get_title (content : String) : String :=
  if firstLine content ≠ "" ∧ (content.data.drop (firstLine content).length).take 3 = ['\n', '\n', '\n'] then
    pyStrip (String.mk ((firstLine content).data ++ ['\n', '\n', '\n']))
  else ""

/-- Python slice `s[a : -1]` for `a ≥ 0`: the characters with indices
`a, …, len s - 2`. -/
def pySliceToNegOne (s : String) (a : Nat) : List Char :=
  (s.data.take (s.data.length - 1)).drop a

/-- An HTML node as yattag builds it: `elem` for `tag`/`line` (paired tags),
`stag` for self-closing tags, `text` for escaped text, `raw` for `doc.asis`. -/
inductive Node where
  | elem (tag : String) (attrs : List (String × String)) (children : List Node)
  | stag (tag : String) (attrs : List (String × String))
  | text (s : String)
  | raw (s : String)

/-- The paragraph computation of `parse_text` (src/silkie/silkie.py,
lines 99-108): `options.content[len(options.title) + 1 : -1].strip().split("\n\n")`
where `options.title` has just been set to `get_title` of the same file. -/
def parse_text_paragraphs (content : String) : List String :=
  (splitNN (pyStripL (pySliceToNegOne content ((get_title content).length + 1)))).map String.mk

/-- Embeds `parse_text` (src/silkie/silkie.py, lines 99-108): it sets the title from
`get_title`, emits it as an `h1` when non-empty (`if options.title:`), then
one `p` per paragraph; yattag `line` renders the given text escaped.
Returns the node list appended to the document body. -/
def parse_text (content : String) : List Node :=
  (if get_title content ≠ "" then [Node.elem "h1" [] [Node.text (get_title content)]] else [])
    ++ (parse_text_paragraphs content).map (fun p => Node.elem "p" [] [Node.text p])

/-- Does a node render an `<h1>` element? -/
def isH1 (n : Node) : Bool :=
  match n with
  | .elem t _ _ => t == "h1"
  | _ => false

/-- The text lines of a string, Python convention: a trailing newline does
not open a further line.  Used only to state the claims' wording. -/
def textLines (c : String) : List (List Char) :=
  if (splitNl c.data).getLast? = some [] ∧ (splitNl c.data).length > 1 then
    (splitNl c.data).dropLast
  else splitNl c.data

/-- Formalization of the claims' phrase: the first line is followed by
exactly two blank lines (the second and third lines are empty, and the
fourth line, when there is one, is not). -/
def exactTwoBlankAfterFirst (c : String) : Bool :=
  match textLines c with
  | _ :: l1 :: l2 :: rest =>
    l1.isEmpty && l2.isEmpty
      && (match rest with | [] => true | r :: _ => !r.isEmpty)
  | _ => false

theorem pyStripL_append_ws (l t : List Char) (ht : ∀ a ∈ t, pyWs a = true) :
    pyStripL (l ++ t) = pyStripL l := by
  unfold pyStripL
  by_cases h : l.dropWhile pyWs = []
  · have hl : ∀ a ∈ l, pyWs a := List.dropWhile_eq_nil_iff.mp h
    rw [List.dropWhile_append_of_pos hl, List.dropWhile_eq_nil_iff.mpr ht, h]
  · have hne : ¬ ((l.dropWhile pyWs).isEmpty = true) := by
      cases hdw : l.dropWhile pyWs with
      | nil => exact absurd hdw h
      | cons a as => simp [List.isEmpty]
    rw [List.dropWhile_append, if_neg hne, List.reverse_append,
      List.dropWhile_append_of_pos (by intro a ha; exact ht a (List.mem_reverse.mp ha))]

theorem pyStrip_firstLine_gap (c : String) :
    pyStrip (String.mk ((firstLine c).data ++ ['\n', '\n', '\n'])) = pyStrip (firstLine c) :=
  congrArg String.mk (pyStripL_append_ws (firstLine c).data ['\n', '\n', '\n'] (by decide))

/-- C2, counterexample: for the content `" \n\n\nx"` the first line (a single
space) is followed by exactly two blank lines, yet the extractor returns the
empty (hence not non-empty) title, because it strips the matched segment. -/
theorem title_pattern_without_nonblank_first_line :
    exactTwoBlankAfterFirst " \n\n\nx" = true ∧ get_title " \n\n\nx" = "" :=
  ⟨rfl, rfl⟩

/-- C2 (amended): the extractor returns a non-empty title iff the first line
trims to a non-empty string and is immediately followed by at least three
consecutive newline characters; whenever the title is non-empty it equals
the first line with surrounding whitespace trimmed. -/
theorem get_title_characterization (c : String) :
    (get_title c ≠ "" ↔
      (pyStrip (firstLine c) ≠ ""
        ∧ (c.data.drop (firstLine c).length).take 3 = ['\n', '\n', '\n']))
    ∧ (get_title c ≠ "" → get_title c = pyStrip (firstLine c)) := by
  unfold get_title
  by_cases h : firstLine c ≠ "" ∧ (c.data.drop (firstLine c).length).take 3 = ['\n', '\n', '\n']
  · rw [if_pos h, pyStrip_firstLine_gap c]
    exact ⟨⟨fun hne => ⟨hne, h.2⟩, fun hh => hh.1⟩, fun _ => rfl⟩
  · rw [if_neg h]
    refine ⟨⟨fun hne => absurd rfl hne, ?_⟩, fun hne => absurd rfl hne⟩
    rintro ⟨h1, h2⟩
    refine absurd ⟨fun hfl => h1 ?_, h2⟩ h
    rw [hfl]
    rfl

theorem get_title_characterization_witness :
    get_title "Hi\n\n\nBody" = pyStrip (firstLine "Hi\n\n\nBody") :=
  (get_title_characterization "Hi\n\n\nBody").2 (by decide)

/-- C1: evaluating the renderer on the spec's example input
`"Hello\n\n\nWorld\n\nFoo bar"` (a `.txt` body).  Because `parse_text`
takes `content[len(title) + 1 : -1]`, the final `r` of `Foo bar` is cut
off: the body is `<h1>Hello</h1><p>World</p><p>Foo ba</p>`, not the
`<p>Foo bar</p>` the spec promises. -/
theorem parse_text_spec_example_drops_final_char :
    parse_text "Hello\n\n\nWorld\n\nFoo bar"
      = [Node.elem "h1" [] [Node.text "Hello"],
         Node.elem "p" [] [Node.text "World"],
         Node.elem "p" [] [Node.text "Foo ba"]] :=
  rfl

/-- C3: evaluating the renderer on the titleless `.txt` content
`"World\n\nFoo"`.  The slice `content[len("") + 1 : -1]` removes the first
and last characters of the content, so the emitted paragraphs are
`<p>orld</p><p>Fo</p>` instead of a split of the entire remaining content
(`<p>World</p><p>Foo</p>`). -/
theorem parse_text_titleless_drops_first_and_last_chars :
    parse_text "World\n\nFoo"
      = [Node.elem "p" [] [Node.text "orld"], Node.elem "p" [] [Node.text "Fo"]] :=
  rfl

/-- C5, counterexample: the content `"T\n\n\n\nx"` does not match the exact
pattern (the first line is followed by three blank lines, not exactly two),
yet the extractor still returns the title `"T"` and the rendered body
contains an `<h1>`: the regex only requires at least three newlines. -/
theorem title_despite_three_blank_lines :
    exactTwoBlankAfterFirst "T\n\n\n\nx" = false ∧ get_title "T\n\n\n\nx" = "T"
      ∧ (parse_text "T\n\n\n\nx").any isH1 = true :=
  ⟨rfl, rfl, rfl⟩

/-- C5 (amended): for every plain-text input whose content does not consist
of a non-empty first line immediately followed by three consecutive newline
characters, the extracted title is empty and the rendered body contains no
`<h1>` element. -/
theorem no_title_pattern_no_h1 (c : String)
    (h : ¬ (firstLine c ≠ ""
        ∧ (c.data.drop (firstLine c).length).take 3 = ['\n', '\n', '\n'])) :
    get_title c = "" ∧ (parse_text c).all (fun n => !isH1 n) = true := by
  have ht : get_title c = "" := by
    unfold get_title
    exact if_neg h
  refine ⟨ht, ?_⟩
  have hp : parse_text c
      = (parse_text_paragraphs c).map (fun p => Node.elem "p" [] [Node.text p]) := by
    unfold parse_text
    rw [ht]
    simp
  rw [hp, List.all_eq_true]
  intro x hx
  rcases List.mem_map.mp hx with ⟨a, _, rfl⟩
  rfl

theorem no_title_pattern_no_h1_witness :
    get_title "Hello world" = ""
      ∧ (parse_text "Hello world").all (fun n => !isH1 n) = true :=
  no_title_pattern_no_h1 "Hello world" (by decide)

/-- C10: the renderer computes the paragraphs from the Python slice
`content[len(title) + 1 : -1]` (stripped, then split on `"\n\n"`): the final
character of the content is always excluded, and for an input with no
detected title the slice starts at index 1, excluding the first character
as well. -/
theorem parse_text_paragraph_slice (c : String) :
    parse_text_paragraphs c
      = (splitNN (pyStripL ((c.data.drop ((get_title c).length + 1)).dropLast))).map String.mk
    ∧ (get_title c = "" →
        parse_text_paragraphs c
          = (splitNN (pyStripL ((c.data.drop 1).dropLast))).map String.mk) := by
  have key : pySliceToNegOne c ((get_title c).length + 1)
      = (c.data.drop ((get_title c).length + 1)).dropLast := by
    unfold pySliceToNegOne
    rw [List.drop_take, List.dropLast_eq_take, List.length_drop]
    congr 1
    omega
  constructor
  · unfold parse_text_paragraphs
    rw [key]
  · intro h
    unfold parse_text_paragraphs
    rw [key, h]
    rfl

theorem parse_text_paragraph_slice_witness :
    parse_text_paragraphs "x\ny"
      = (splitNN (pyStripL (("x\ny".data.drop 1).dropLast))).map String.mk :=
  (parse_text_paragraph_slice "x\ny").2 (by decide)

/-! ## Paths, slugs and generator options -/

/-- The final path component (the characters after the last `/`). -/
def basenameL (l : List Char) : List Char :=
  l.foldl (fun acc ch => if ch = '/' then [] else acc ++ [ch]) []

/-- Python `pathlib.Path(p).suffix`: the extension of the final component, from its
last dot; empty when there is no dot, when the dot is last, or when the only
dot is the leading one of a hidden file. -/
def pathSuffixL (p : List Char) : List Char :=
  match splitOnChar '.' (basenameL p) with
  | [] => []
  | [_] => []
  | [[], _] => []
  | parts =>
    match parts.getLast? with
    | some ext => if ext.isEmpty then [] else '.' :: ext
    | none => []

/-- Python `pathlib.Path(p).suffix` on strings. -/
def pathSuffix (p : String) : String := String.mk (pathSuffixL p.data)

/-- Python `pathlib.Path(p).stem`: the final component without its suffix. -/
def stemOf (p : String) : String :=
  String.mk ((basenameL p.data).take ((basenameL p.data).length - (pathSuffixL p.data).length))

/-- Modelled from the spec: the slug derivation lives in
`silkie/options.py`, which is not under `src/`.  Per the spec's glossary the
slug is the filesystem-stem-derived identifier of the input file. -/
def slugOf (p : String) : String := stemOf p

/-- Modelled from the spec: `silkie/definitions.py` is not under `src/`.
The spec names plain text (`.txt`) and Markdown (`.md`) as the supported
inputs, scanned in a fixed extension-preference order. -/
def SUPORTED_FILE_EXTENSIONS : List String := [".txt", ".md"]

/-- Modelled from the spec: `silkie/definitions.py` is not under `src/`;
per spec §6 the output directory is named `dist/`. -/
def DIST_DIRECTORY_PATH : String := "dist"

/-- The configuration produced by the option loader (input path aside):
stylesheet URL, language tag and description.  The option-loading logic
itself lives in `silkie/options.py` (not under `src/`). -/
structure Config where
  stylesheet_url : Option String
  lang : String
  description : String

/-- Modelled from the spec: `GeneratorOptions` is defined in
`silkie/options.py`, which is not under `src/`.  Per spec §3 it carries the
input path, stylesheet URL, language tag, description, and the per-file
derived fields title, content and slug. -/
structure GeneratorOptions where
  input_path : String
  stylesheet_url : Option String
  lang : String
  description : String
  title : String
  content : String
  slug : String

/-- Modelled from the spec: `GeneratorOptions.load_metadata` lives in
`silkie/options.py`, which is not under `src/`.  Per spec §2/§3/§4.2 it
reads the source file (`content` is its raw text), derives the title from
the content via the extractor heuristic, takes the description from the
configuration, and derives the slug from the filename. -/
def load_metadata (cfg : Config) (path content : String) : GeneratorOptions :=
  { input_path := path
    stylesheet_url := cfg.stylesheet_url
    lang := cfg.lang
    description := cfg.description
    title := get_title content
    content := content
    slug := slugOf path }

/-! ## The HTML document -/

/-- Embeds `get_html_head` (src/silkie/silkie.py, lines 82-96): the children
appended to the `<head>` element — charset and viewport metas, the two
description metas, the `<title>`, and a stylesheet `<link>` exactly when a
stylesheet URL is configured. -/
def get_html_head (opts : GeneratorOptions) : List Node :=
  [Node.stag "meta" [("charset", "utf-8")],
   Node.stag "meta" [("name", "viewport"), ("content", "width=device-width, initial-scale=1")],
   Node.stag "meta" [("name", "description"), ("content", opts.description)],
   Node.stag "meta" [("property", "og:description"), ("content", opts.description)],
   Node.elem "title" [] [Node.text opts.title]]
  ++ (match opts.stylesheet_url with
      | some url => [Node.stag "link" [("rel", "stylesheet"), ("href", url)]]
      | none => [])

/-- The children of `<body>` in `get_html`: `parse_text` for `.txt` files,
the Markdown conversion (`doc.asis(markdown.markdown(content.strip()))`,
inserted verbatim) for `.md` files.  The external `markdown.markdown`
converter is an uninterpreted parameter `md`. -/
def bodyChildren (md : String → String) (opts : GeneratorOptions) : List Node :=
  if pathSuffix opts.input_path = ".txt" then parse_text opts.content
  else if pathSuffix opts.input_path = ".md" then [Node.raw (md (pyStrip opts.content))]
  else []

/-- Embeds `get_html` (src/silkie/silkie.py, lines 116-130) as the node forest the
yattag document holds before `indent(doc.getvalue())` renders it: the
doctype, then an `<html lang=...>` element containing the head and the
body. -/
def get_html (md : String → String) (opts : GeneratorOptions) : List Node :=
  [Node.raw "<!DOCTYPE html>",
   Node.elem "html" [("lang", opts.lang)]
     [Node.elem "head" [] (get_html_head opts),
      Node.elem "body" [] (bodyChildren md opts)]]

/-- The `href` values of stylesheet `<link>` tags on one tag. -/
def linkHrefIf (t : String) (attrs : List (String × String)) : List String :=
  if t = "link" then
    match attrs.lookup "rel" with
    | some r => if r = "stylesheet" then (attrs.lookup "href").toList else []
    | none => []
  else []

mutual

/-- All stylesheet `<link>` hrefs occurring anywhere in a node. -/
def stylesheetHrefs : Node → List String
  | .elem t attrs cs => linkHrefIf t attrs ++ stylesheetHrefsList cs
  | .stag t attrs => linkHrefIf t attrs
  | .text _ => []
  | .raw _ => []

/-- All stylesheet `<link>` hrefs occurring anywhere in a node forest. -/
def stylesheetHrefsList : List Node → List String
  | [] => []
  | n :: ns => stylesheetHrefs n ++ stylesheetHrefsList ns

end

theorem stylesheetHrefsList_append (a b : List Node) :
    stylesheetHrefsList (a ++ b) = stylesheetHrefsList a ++ stylesheetHrefsList b := by
  induction a with
  | nil => rfl
  | cons n ns ih => simp [stylesheetHrefsList, ih]

theorem stylesheetHrefsList_paragraphs (ps : List String) :
    stylesheetHrefsList (ps.map (fun p => Node.elem "p" [] [Node.text p])) = [] := by
  induction ps with
  | nil => rfl
  | cons p ps ih => simp [stylesheetHrefsList, stylesheetHrefs, linkHrefIf, ih]

theorem stylesheetHrefsList_parse_text (c : String) :
    stylesheetHrefsList (parse_text c) = [] := by
  unfold parse_text
  rw [stylesheetHrefsList_append]
  by_cases h : get_title c ≠ ""
  · rw [if_pos h, stylesheetHrefsList_paragraphs]
    simp [stylesheetHrefsList, stylesheetHrefs, linkHrefIf]
  · rw [if_neg h, stylesheetHrefsList_paragraphs]
    rfl

theorem stylesheetHrefsList_head (opts : GeneratorOptions) :
    stylesheetHrefsList (get_html_head opts) = opts.stylesheet_url.toList := by
  unfold get_html_head
  cases opts.stylesheet_url with
  | none => simp [stylesheetHrefsList, stylesheetHrefs, linkHrefIf]
  | some u => simp [stylesheetHrefsList, stylesheetHrefs, linkHrefIf, List.lookup]

/-- C6: a generated document contains a stylesheet `<link>` exactly when a
stylesheet URL is configured — then the single such element sits in the
`<head>` with that URL as its `href`; with no URL configured the document
contains no stylesheet `<link>` at all. -/
theorem generated_document_stylesheet_links (md : String → String) (opts : GeneratorOptions) :
    stylesheetHrefsList (get_html md opts) = opts.stylesheet_url.toList := by
  have hbody : stylesheetHrefsList (bodyChildren md opts) = [] := by
    unfold bodyChildren
    by_cases h1 : pathSuffix opts.input_path = ".txt"
    · rw [if_pos h1]
      exact stylesheetHrefsList_parse_text _
    · rw [if_neg h1]
      by_cases h2 : pathSuffix opts.input_path = ".md"
      · rw [if_pos h2]
        rfl
      · rw [if_neg h2]
        rfl
  unfold get_html
  simp [stylesheetHrefsList, stylesheetHrefs, linkHrefIf, hbody, stylesheetHrefsList_head opts]
  cases opts.stylesheet_url <;> simp [stylesheetHrefsList, stylesheetHrefs, linkHrefIf, List.lookup]

/-! ## The generation run -/

/-- The error taxonomy of the CLI's `try` block: `FileNotFoundError`,
`JSONDecodeError` (malformed config), and `OSError`; the duplicate-route
`FileExistsError` raised by `build_folder_structure` is an `OSError`
subclass, listed separately with the slug it carries. -/
inductive SilkieError where
  | notFound (msg : String)
  | malformedConfig (msg : String)
  | osFailure (msg : String)
  | duplicateRoute (slug : String)

/-- Python `str(error)` for each taxonomy error; for the duplicate route this is
the message `build_folder_structure` raises. -/
def errorMessage : SilkieError → String
  | .notFound m => m
  | .malformedConfig m => m
  | .osFailure m => m
  | .duplicateRoute slug =>
      "warn: Duplicate routes found!\n" ++ slug ++ " is already taken by another document"

/-- Modelled from the spec: `TextColor` lives in `silkie/utils.py`, which is
not under `src/`; per spec §6/§7 failures are rendered colored.  Standard
ANSI escape codes. -/
def TextColor.FAIL : String := "\x1b[91m"

/-- Modelled from the spec, as `TextColor.FAIL`. -/
def TextColor.ENDC : String := "\x1b[0m"

/-- Modelled from the spec, as `TextColor.FAIL`. -/
def TextColor.OKGREEN : String := "\x1b[92m"

/-- Modelled from the spec, as `TextColor.FAIL`. -/
def TextColor.BOLD : String := "\x1b[1m"

/-- The single console line each `except` clause of the CLI echoes:
`f"{TextColor.FAIL}✕ {str(error)}{TextColor.ENDC}"` — the same shape in
all three clauses. -/
def failureLine (e : SilkieError) : String :=
  TextColor.FAIL ++ "✕ " ++ errorMessage e ++ TextColor.ENDC

/-- The success line `write_static_file` echoes per generated file. -/
def successLine (slug : String) : String :=
  TextColor.OKGREEN ++ TextColor.BOLD ++ "✓ Success: Static file for '"
    ++ slug ++ "' is generated in dist/" ++ TextColor.ENDC

/-- A source file handed to `generate_static_file`: its path and its text. -/
structure SrcFile where
  path : String
  content : String

/-- The destination route `build_folder_structure` computes:
`dist/<slug>.html`. -/
def routeOf (f : SrcFile) : String :=
  DIST_DIRECTORY_PATH ++ "/" ++ slugOf f.path ++ ".html"

/-- Embeds `generate_static_file` (src/silkie/silkie.py, lines 165-172) on one
file: render the HTML, then `build_folder_structure` (lines 145-162) raises
`FileExistsError` when the route already exists — `dist/` is freshly
recreated at the start of the run, so a route exists exactly when this run
already wrote it — and otherwise `write_static_file` writes the document. -/
def generate_static_file (cfg : Config) (md : String → String) (dist : List (String × List Node))
    (f : SrcFile) : Except SilkieError (List (String × List Node)) :=
  let opts := load_metadata cfg f.path f.content
  let html := get_html md opts
  if routeOf f ∈ dist.map Prod.fst then
    .error (.duplicateRoute opts.slug)
  else
    .ok (dist ++ [(routeOf f, html)])

/-- The per-file loop of the CLI command: process the files in order; an
exception raised while processing one file propagates past the loop, so the
remaining files are not processed.  Returns the final `dist/` contents, the
success lines echoed, and the escaped error, if any. -/
def runLoop (cfg : Config) (md : String → String) :
    List SrcFile → List (String × List Node)
      → List (String × List Node) × List String × Option SilkieError
  | [], dist => (dist, [], none)
  | f :: fs, dist =>
    match generate_static_file cfg md dist f with
    | .error e => (dist, [], some e)
    | .ok dist' =>
      match runLoop cfg md fs dist' with
      | (d, ls, err) => (d, successLine (slugOf f.path) :: ls, err)

/-- The `try`/`except` of the CLI command `silkie` around the loop: the
previous `dist/` directory is removed and recreated empty
(`shutil.rmtree` + `makedirs`, so `prev` is discarded), the files are
processed, and an escaped taxonomy error is echoed as its single failure
line.  Returns the final `dist/` contents and the console lines in order. -/
def silkieRun (cfg : Config) (md : String → String) (files : List SrcFile)
    (_prev : Option (List (String × List Node))) :
    List (String × List Node) × List String :=
  match runLoop cfg md files [] with
  | (dist, ls, err) =>
    (dist, ls ++ (match err with | some e => [failureLine e] | none => []))

/-- C4: in a run over two distinct input files whose paths resolve to the
same slug, the first file is written and the second file's write fails with
the duplicate-route error (its destination `dist/<slug>.html` already
exists); the second file is not written — the final `dist/` holds only the
first file's route, and only the first file got a success line. -/
theorem duplicate_slug_second_write_fails (cfg : Config) (md : String → String)
    (f1 f2 : SrcFile) (_hne : f1.path ≠ f2.path)
    (hslug : slugOf f1.path = slugOf f2.path) :
    runLoop cfg md [f1, f2] []
      = ([(routeOf f1, get_html md (load_metadata cfg f1.path f1.content))],
         [successLine (slugOf f1.path)],
         some (.duplicateRoute (slugOf f2.path))) := by
  have hroute : routeOf f2 = routeOf f1 := by
    unfold routeOf
    rw [hslug]
  have h1 : generate_static_file cfg md [] f1
      = .ok [(routeOf f1, get_html md (load_metadata cfg f1.path f1.content))] := by
    unfold generate_static_file
    rw [if_neg (by simp)]
    rw [List.nil_append]
  have h2 : generate_static_file cfg md
        [(routeOf f1, get_html md (load_metadata cfg f1.path f1.content))] f2
      = .error (.duplicateRoute (slugOf f2.path)) := by
    unfold generate_static_file
    rw [if_pos (by simp [hroute])]
    rfl
  simp [runLoop, h1, h2]

theorem duplicate_slug_second_write_fails_witness :
    runLoop ⟨none, "en-CA", "d"⟩ (fun s => s) [⟨"in/x.txt", "hi"⟩, ⟨"other/x.txt", "yo"⟩] []
      = ([(routeOf ⟨"in/x.txt", "hi"⟩,
           get_html (fun s => s) (load_metadata ⟨none, "en-CA", "d"⟩ "in/x.txt" "hi"))],
         [successLine (slugOf "in/x.txt")],
         some (.duplicateRoute (slugOf "other/x.txt"))) :=
  duplicate_slug_second_write_fails ⟨none, "en-CA", "d"⟩ (fun s => s)
    ⟨"in/x.txt", "hi"⟩ ⟨"other/x.txt", "yo"⟩ (by decide) (by decide)

theorem runLoop_reaches_dup (cfg : Config) (md : String → String) (f : SrcFile)
    (post : List SrcFile) :
    ∀ (pre : List SrcFile) (dist0 : List (String × List Node)),
      (∀ g ∈ pre, routeOf g ∉ dist0.map Prod.fst) →
      (pre.map routeOf).Nodup →
      routeOf f ∈ dist0.map Prod.fst ++ pre.map routeOf →
      runLoop cfg md (pre ++ f :: post) dist0 =
        (dist0 ++ pre.map (fun g => (routeOf g, get_html md (load_metadata cfg g.path g.content))),
         pre.map (fun g => successLine (slugOf g.path)),
         some (.duplicateRoute (slugOf f.path))) := by
  intro pre
  induction pre with
  | nil =>
    intro dist0 _ _ hmem
    simp only [List.map_nil, List.append_nil] at hmem
    have hgen : generate_static_file cfg md dist0 f
        = .error (.duplicateRoute (slugOf f.path)) := by
      unfold generate_static_file
      rw [if_pos hmem]
      rfl
    simp [runLoop, hgen]
  | cons g pre ih =>
    intro dist0 h1 h2 hmem
    have hg : routeOf g ∉ dist0.map Prod.fst := h1 g (List.mem_cons_self g pre)
    have hgen : generate_static_file cfg md dist0 g
        = .ok (dist0 ++ [(routeOf g, get_html md (load_metadata cfg g.path g.content))]) := by
      unfold generate_static_file
      rw [if_neg hg]
    have hnotin : routeOf g ∉ pre.map routeOf := by
      simp only [List.map_cons, List.nodup_cons] at h2
      exact h2.1
    have h2' : (pre.map routeOf).Nodup := by
      simp only [List.map_cons, List.nodup_cons] at h2
      exact h2.2
    have h1' : ∀ g' ∈ pre, routeOf g'
        ∉ (dist0 ++ [(routeOf g, get_html md (load_metadata cfg g.path g.content))]).map Prod.fst := by
      intro g' hg' hmem'
      rw [List.map_append] at hmem'
      rcases List.mem_append.mp hmem' with hA | hB
      · exact h1 g' (List.mem_cons_of_mem g hg') hA
      · simp only [List.map_cons, List.map_nil, List.mem_singleton] at hB
        apply hnotin
        rw [← hB]
        exact List.mem_map_of_mem routeOf hg'
    have hmemStep : routeOf f
        ∈ (dist0 ++ [(routeOf g, get_html md (load_metadata cfg g.path g.content))]).map Prod.fst
          ++ pre.map routeOf := by
      rw [List.map_append]
      rcases List.mem_append.mp hmem with hA | hB
      · exact List.mem_append.mpr (.inl (List.mem_append.mpr (.inl hA)))
      · rw [List.map_cons] at hB
        rcases List.mem_cons.mp hB with hB1 | hB2
        · exact List.mem_append.mpr (.inl (List.mem_append.mpr (.inr (by simp [hB1]))))
        · exact List.mem_append.mpr (.inr hB2)
    have hrec := ih (dist0 ++ [(routeOf g, get_html md (load_metadata cfg g.path g.content))])
      h1' h2' hmemStep
    simp [runLoop, hgen, hrec, List.append_assoc]

/-- C7: every taxonomy error escaping the per-file loop is caught by the
command's `except` clauses and echoed as the single colored failure line;
in particular when a duplicate route is hit mid-scan the files after the
failing one are not processed — the console shows exactly the success lines
of the files before it plus one failure line, and `dist/` holds exactly
their routes. -/
theorem taxonomy_error_single_line_and_abort (cfg : Config) (md : String → String)
    (prev : Option (List (String × List Node)))
    (pre : List SrcFile) (f : SrcFile) (post : List SrcFile)
    (hnd : (pre.map routeOf).Nodup)
    (hmem : routeOf f ∈ pre.map routeOf) :
    silkieRun cfg md (pre ++ f :: post) prev
      = (pre.map (fun g => (routeOf g, get_html md (load_metadata cfg g.path g.content))),
         pre.map (fun g => successLine (slugOf g.path))
           ++ [failureLine (.duplicateRoute (slugOf f.path))]) := by
  have h := runLoop_reaches_dup cfg md f post pre [] (by simp) hnd (by simpa using hmem)
  unfold silkieRun
  rw [h]
  simp

theorem taxonomy_error_single_line_and_abort_witness :
    (silkieRun ⟨none, "en-CA", "d"⟩ (fun s => s)
        [⟨"d/a.txt", "x"⟩, ⟨"e/a.txt", "y"⟩, ⟨"d/b.txt", "z"⟩] none).2
      = [successLine "a", failureLine (.duplicateRoute "a")] := by
  have h := taxonomy_error_single_line_and_abort ⟨none, "en-CA", "d"⟩ (fun s => s) none
    [⟨"d/a.txt", "x"⟩] ⟨"e/a.txt", "y"⟩ [⟨"d/b.txt", "z"⟩] (by decide) (by decide)
  simp only [List.singleton_append] at h
  rw [h]
  rfl

/-- C8: the run result is independent of whatever `dist/` held before — the
clean build (`shutil.rmtree` then `makedirs`) discards it — and rendering
is a pure function of the input files and configuration, so running the
generation twice in a row produces identical output files, byte for byte. -/
theorem rerun_identical_output (cfg : Config) (md : String → String) (files : List SrcFile)
    (prev1 prev2 : Option (List (String × List Node))) :
    silkieRun cfg md files prev1 = silkieRun cfg md files prev2
    ∧ silkieRun cfg md files (some (silkieRun cfg md files prev1).1)
        = silkieRun cfg md files prev1 :=
  ⟨rfl, rfl⟩

/-! ## The full CLI command -/

/-- Is `pat` a prefix of `s`? -/
def startsWithL : List Char → List Char → Bool
  | [], _ => true
  | _ :: _, [] => false
  | a :: as, b :: bs => a = b && startsWithL as bs

/-- Is `pat` a suffix of `s`? -/
def endsWithL (pat s : List Char) : Bool :=
  startsWithL pat.reverse s.reverse

/-- Python `os.path.isfile` over the modelled input file system (a list of files
with their contents). -/
def isFile (fs : List SrcFile) (p : String) : Bool :=
  fs.any (fun f => f.path == p)

/-- Reading a file's text from the modelled file system. -/
def fileContent (fs : List SrcFile) (p : String) : String :=
  (((fs.find? (fun f => f.path == p)).map SrcFile.content).getD "")

/-- Python `os.path.isdir` over the modelled file system: some file lives under
the path. -/
def isDir (fs : List SrcFile) (p : String) : Bool :=
  fs.any (fun f => startsWithL (p ++ "/").data f.path.data)

/-- Python `glob.glob(path.join(dir_path, "*" + extension))`: the files directly
inside the directory whose names end with the extension; `*` does not match
a leading dot. -/
def globFiles (fs : List SrcFile) (dir ext : String) : List SrcFile :=
  fs.filter (fun f =>
    startsWithL (dir ++ "/").data f.path.data
    && !(((f.path.data).drop (dir.length + 1)).contains '/')
    && (match (f.path.data).drop (dir.length + 1) with
        | [] => false
        | c :: _ => c != '.')
    && endsWithL ext.data f.path.data)

/-- Modelled from the spec: `is_filetype_supported` lives in
`silkie/utils.py`, which is not under `src/`; a file is supported when its
extension is one of the supported ones. -/
def is_filetype_supported (p : String) : Bool :=
  SUPORTED_FILE_EXTENSIONS.contains (pathSuffix p)

/-- The input resolution of the CLI command: the single-file branch
(`path.isfile` and supported), then the directory branch — for each
supported extension in order, every matching file of the directory. -/
def resolveInputs (fs : List SrcFile) (p : String) : List SrcFile :=
  (if isFile fs p && is_filetype_supported p then [⟨p, fileContent fs p⟩] else [])
  ++ (if isDir fs p then
        (SUPORTED_FILE_EXTENSIONS.map (fun ext => globFiles fs p ext)).foldr (· ++ ·) []
      else [])

/-- The CLI command `silkie` (src/silkie/silkie.py, lines 35-65): the
options are constructed, `dist/` is removed and recreated empty (so the
previous dist state `_prev` is discarded in every case), then the file and
directory branches run and taxonomy errors are echoed.  With no `--input`
flag, nothing is resolved and nothing is generated (modelled from the spec:
the option loader in `silkie/options.py`, not under `src/`, accepts an
absent input path, and §6 says no flags generate nothing) — but the clean
build has still replaced the previous `dist/` with an empty one. -/
def silkieCLI (cfg : Config) (md : String → String) (fs : List SrcFile)
    (input_path : Option String) (_prev : Option (List (String × List Node))) :
    Option (List (String × List Node)) × List String :=
  match input_path with
  | none => (some [], [])
  | some p =>
    match runLoop cfg md (resolveInputs fs p) [] with
    | (dist, ls, err) =>
      (some dist, ls ++ (match err with | some e => [failureLine e] | none => []))

/-- C9, counterexample: invoking the CLI with no flags is not a no-op — the
output directory is still deleted and recreated empty, so a pre-existing
`dist/old.html` is removed even though nothing is generated. -/
theorem no_flags_clears_dist :
    silkieCLI ⟨none, "en-CA", "d"⟩ (fun s => s) [] none
        (some [("dist/old.html", [Node.text "old"])])
      = (some [], [])
    ∧ (some [] : Option (List (String × List Node)))
        ≠ some [("dist/old.html", [Node.text "old"])] := by
  refine ⟨rfl, fun h => ?_⟩
  simp at h

/-- C9 (amended): with no flags nothing is generated — no routes are
written and no console lines are printed — but the `dist/` directory is
still cleared and recreated empty, whatever it previously held. -/
theorem no_flags_generates_nothing (cfg : Config) (md : String → String)
    (fs : List SrcFile) (prev : Option (List (String × List Node))) :
    silkieCLI cfg md fs none prev = (some [], []) :=
  rfl

end Silkie
